/-
  Verification of the Auralis.ai (DriveMind.ai) ingest -> score -> fan-out
  pipeline, shallowly embedded from the repository's backend and simulator
  code (backend/main.py, backend/app/routes.py, backend/models/schemas.py,
  backend/services/ml_service.py, simulation/drive_simulator.py, as quoted
  in the repository's implementation documents).

  Numeric telemetry and score values are modelled as rationals; the exact
  decimal constants of the code (5.0, 0.5, 0.95, retry delays) are all
  representable exactly.
-/
import Mathlib

namespace Auralis

/-! ## Data model

`DrivingData`, from backend/models/schemas.py (IMPLEMENTATION_NOTES.md
section 2.1 and TIMEOUT_FIX_SUMMARY.md section 1.D): speed, acceleration,
braking_intensity, steering_angle are required; jerk, simulation_mode,
scenario and session_id are Optional with default None. -/

structure DrivingData where
  speed : ℚ
  acceleration : ℚ
  braking_intensity : ℚ
  steering_angle : ℚ
  jerk : Option ℚ
  timestamp : Nat
  simulation_mode : Option String
  scenario : Option String
  session_id : Option String
deriving Repr, DecidableEq

/-- The `ScoreResponse` model, from backend/models/schemas.py as documented in
TIMEOUT_FIX_SUMMARY.md and README.md "API Response Format": fields
`score`, `timestamp`, `confidence`. -/
structure ScoreResponse where
  score : ℚ
  timestamp : Nat
  confidence : ℚ
deriving Repr, DecidableEq

/-! ## Connection registry and broadcast (backend/main.py)

From src/unnamed/part_000 ("Parallel WebSocket Implementation"): two
module-level connection pools, `personal_connections` and
`fleet_connections`; three WebSocket endpoints, `/ws/personal`,
`/ws/fleet` and the legacy `/ws` which routes to personal; and
`broadcast_to_clients`, which reads `message.get('mode', 'personal')`,
selects `fleet_connections` when the mode is `'fleet'` and
`personal_connections` otherwise, then sends the message to every
connection in the selected pool. -/

/-- Connection identity: an opaque handle to a live subscriber. -/
abbrev ConnId := Nat

/-- The two connection pools that exist in backend/main.py. -/
inductive Pool where
  | personal
  | fleet
deriving Repr, DecidableEq

/-- The three WebSocket endpoints of backend/main.py. -/
inductive Endpoint where
  | ws_personal
  | ws_fleet
  | ws_legacy
deriving Repr, DecidableEq

/-- Which pool an endpoint registers its connections in: `/ws/personal`
and the legacy `/ws` put connections in `personal_connections`,
`/ws/fleet` in `fleet_connections`. -/
def poolOf : Endpoint → Pool
  | .ws_personal => .personal
  | .ws_legacy => .personal
  | .ws_fleet => .fleet

/-- A broadcast message as built by the `/api/driving_data` route: a
`mode` field (absent when the record carried no `simulation_mode`) and a
payload. Only the mode matters for routing. -/
structure Message where
  mode : Option String
  payload : ScoreResponse
deriving Repr, DecidableEq

/-- The mode lookup `message.get('mode', 'personal')` in `broadcast_to_clients`. -/
def Message.resolvedMode (m : Message) : String :=
  m.mode.getD "personal"

/-- The registry state: the two module-level lists of backend/main.py. -/
structure Registry where
  personal_connections : List ConnId
  fleet_connections : List ConnId
deriving Repr, DecidableEq

/-- Initial registry: both pools start as empty lists. -/
def Registry.init : Registry := ⟨[], []⟩

/-- The pool selected by `broadcast_to_clients` for a message:
`if mode == 'fleet': connections = fleet_connections
 else: connections = personal_connections`. -/
def routePool (m : Message) : Pool :=
  if m.resolvedMode = "fleet" then .fleet else .personal

/-- The list of connections in a given pool. -/
def Registry.connectionsIn (r : Registry) : Pool → List ConnId
  | .personal => r.personal_connections
  | .fleet => r.fleet_connections

/-- Registering a connection under an endpoint (the `accept` +
`connections.append(websocket)` step of each WebSocket handler). -/
def Registry.join (r : Registry) (e : Endpoint) (c : ConnId) : Registry :=
  match poolOf e with
  | .personal => { r with personal_connections := r.personal_connections ++ [c] }
  | .fleet => { r with fleet_connections := r.fleet_connections ++ [c] }

/-- Removing a connection on disconnect (`connections.remove(websocket)`);
removing an absent connection leaves the pool unchanged. -/
def Registry.leave (r : Registry) (c : ConnId) : Registry :=
  { personal_connections := r.personal_connections.filter (· ≠ c)
    fleet_connections := r.fleet_connections.filter (· ≠ c) }

/-- One delivery performed by a broadcast: which connection received the
message, which pool the broadcast iterated over, and the message itself. -/
structure Delivery where
  conn : ConnId
  pool : Pool
  msg : Message
deriving Repr, DecidableEq

/-- The send loop of `broadcast_to_clients`:
`for connection in connections: await connection.send_text(json.dumps(message))`.
`send_ok c` says whether `send_text` succeeds on connection `c`. There is
no try/except around the send: the first failing send raises out of the
loop, so the loop returns the connections reached before the failure and
whether an exception escaped. No connection is removed here. -/
def broadcast_send_loop (send_ok : ConnId → Bool) :
    List ConnId → List ConnId × Bool
  | [] => ([], false)
  | c :: cs =>
    if send_ok c then
      let r := broadcast_send_loop send_ok cs
      (c :: r.1, r.2)
    else
      ([], true)

/-- Function `broadcast_to_clients(message)`: select the pool by the message's
mode, then send to every connection in that pool in order. Returns the
deliveries made and whether a send raised. -/
def broadcast_to_clients (send_ok : ConnId → Bool) (r : Registry)
    (m : Message) : List Delivery × Bool :=
  let sent := broadcast_send_loop send_ok (r.connectionsIn (routePool m))
  (sent.1.map (fun c => ⟨c, routePool m, m⟩), sent.2)

/-- The events that may interleave on the registry: a subscriber joining
at one of the three endpoints, a subscriber leaving, and a broadcast
triggered by a scored submission (carrying which sends would succeed). -/
inductive Event where
  | join (e : Endpoint) (c : ConnId)
  | leave (c : ConnId)
  | broadcast (m : Message) (send_ok : ConnId → Bool)

/-- Apply one event, collecting the deliveries it causes. The broadcast
runs as a detached `asyncio.create_task`, so a send exception is swallowed
by the task and the registry is left unchanged. -/
def applyEvent (r : Registry) : Event → Registry × List Delivery
  | .join e c => (r.join e c, [])
  | .leave c => (r.leave c, [])
  | .broadcast m send_ok => (r, (broadcast_to_clients send_ok r m).1)

/-- Run an arbitrary interleaving of events from a registry state,
collecting all deliveries in order. -/
def runTrace (r : Registry) : List Event → Registry × List Delivery
  | [] => (r, [])
  | ev :: evs =>
    let step := applyEvent r ev
    let rest := runTrace step.1 evs
    (rest.1, step.2 ++ rest.2)

/-! ## Admission-controlled scorer (backend/app/routes.py, backend/services/ml_service.py)

From TIMEOUT_FIX_SUMMARY.md section 1 and PYTHON_310_COMPATIBILITY.md:
the `/api/driving_data` route runs
`asyncio.wait_for(_acquire_and_calculate_score(semaphore, ml_service, data), timeout=2.0)`;
on `asyncio.TimeoutError` it returns
`ScoreResponse(score=5.0, timestamp=..., confidence=0.5)`.
From IMPLEMENTATION_NOTES.md section 1.3: `calculate_score` wraps the
computation in try/except and returns `5.0` if the computation raises.
From README.md "API Response Format": a normal (non-fallback) response
carries `confidence: 0.95`. -/

/-- Modelled from the spec: the body of `_rule_based_score` in
backend/services/ml_service.py is not present in the repository snapshot
(only its callers and documentation are). Spec section 2 describes the
Score Computer as a pure function mapping a telemetry record to a score
in [0,10] backed by a deterministic rule set, tolerating out-of-range
inputs without crashing; modelled as a base score of 10 minus penalties
for speeding, harsh braking, acceleration, steering and jerk, clamped
into [0,10]. -/
def rule_based_score (d : DrivingData) : ℚ :=
  let penalty :=
    max 0 (d.speed - 80) / 20 + 2 * d.braking_intensity +
      |d.acceleration| / 2 + |d.steering_angle| / 90 + |d.jerk.getD 0| / 10
  max 0 (min 10 (10 - penalty))

/-- Function `calculate_score` (ml_service.py): run the score computation; if it
raises, catch the exception and return the safe fallback score 5.0. The
computation is a parameter so that a raising Score Computer can be
studied; the deployed computer is `rule_based_score`, which never
raises. -/
def calculate_score (computer : DrivingData → Except String ℚ)
    (d : DrivingData) : ℚ :=
  match computer d with
  | .ok s => s
  | .error _ => 5

/-- The deployed Score Computer: rule-based scoring, never raising. -/
def deployed_computer (d : DrivingData) : Except String ℚ :=
  .ok (rule_based_score d)

/-- The per-call deadline of `asyncio.wait_for(..., timeout=2.0)`,
in seconds. -/
def DEADLINE : ℚ := 2

/-- The `/api/driving_data` route body: `elapsed` is the total time spent
acquiring the semaphore plus running the computation; when it exceeds the
2-second deadline, `asyncio.TimeoutError` is caught and the fallback
`ScoreResponse(score=5.0, ..., confidence=0.5)` is returned; otherwise
the computed score is returned with the normal confidence 0.95. -/
def driving_data_route (computer : DrivingData → Except String ℚ)
    (elapsed : ℚ) (now : Nat) (d : DrivingData) : ScoreResponse :=
  if DEADLINE < elapsed then
    { score := 5, timestamp := now, confidence := 1/2 }
  else
    { score := calculate_score computer d, timestamp := now, confidence := 19/20 }

/-! ## Request validation (backend/models/schemas.py)

`DrivingData` is a pydantic `BaseModel`: `speed`, `acceleration`,
`braking_intensity`, `steering_angle` and `timestamp` are required;
`jerk`, `simulation_mode`, `scenario` and `session_id` are `Optional`
with default `None` (TIMEOUT_FIX_SUMMARY.md section 1.D,
IMPLEMENTATION_NOTES.md section 2.1). A request missing a required field
is rejected by FastAPI with a 422 client error before the route runs. -/

/-- A raw submission body, before pydantic validation: every field may be
absent. -/
structure RawRecord where
  speed : Option ℚ
  acceleration : Option ℚ
  braking_intensity : Option ℚ
  steering_angle : Option ℚ
  jerk : Option ℚ
  timestamp : Option Nat
  simulation_mode : Option String
  scenario : Option String
  session_id : Option String
deriving Repr, DecidableEq

/-- Pydantic validation of a submission against the `DrivingData` model:
the five required fields must be present; `jerk`, `simulation_mode`,
`scenario` and `session_id` default to `None` when absent. -/
def parse_driving_data (r : RawRecord) : Except String DrivingData :=
  match r.speed, r.acceleration, r.braking_intensity, r.steering_angle, r.timestamp with
  | some sp, some ac, some br, some st, some ts =>
    .ok ⟨sp, ac, br, st, r.jerk, ts, r.simulation_mode, r.scenario, r.session_id⟩
  | _, _, _, _, _ => .error "422 Unprocessable Entity"

/-- The ingest endpoint end to end: validate the submission, score it
(with timeout fallback), and broadcast the result tagged with the
record's `simulation_mode` to the matching connection pool; returns the
response together with the deliveries the broadcast makes. The broadcast
is spawned with `asyncio.create_task`, so a send failure inside it never
reaches the producer's response. -/
def ingest (computer : DrivingData → Except String ℚ) (elapsed : ℚ)
    (now : Nat) (send_ok : ConnId → Bool) (r : Registry) (raw : RawRecord) :
    Except String (ScoreResponse × List Delivery) :=
  match parse_driving_data raw with
  | .error e => .error e
  | .ok d =>
    let resp := driving_data_route computer elapsed now d
    .ok (resp, (broadcast_to_clients send_ok r ⟨d.simulation_mode, resp⟩).1)

/-! ## Admission bound (backend/main.py)

`request_semaphore = asyncio.Semaphore(MAX_CONCURRENT_REQUESTS)` with
`MAX_CONCURRENT_REQUESTS = 10`; every scoring call runs inside
`async with semaphore:` (`_acquire_and_calculate_score`), so the number
of computations in progress is the number of holders of the semaphore. -/

def MAX_CONCURRENT_REQUESTS : Nat := 10

/-- Events on the admission semaphore: a task entering the
`async with semaphore:` block (it proceeds only when a slot is free,
otherwise it waits and the in-progress count is unchanged) and a task
leaving the block. -/
inductive SemEvent where
  | acquire
  | release
deriving Repr, DecidableEq

/-- One scheduler step of the semaphore: `s` is the number of
computations in progress. An acquire beyond the bound leaves the caller
waiting (count unchanged); a release frees a slot. -/
def semStep (n : Nat) (s : Nat) : SemEvent → Nat
  | .acquire => if s < n then s + 1 else s
  | .release => s - 1

/-- All in-progress counts observed along an arbitrary interleaving of
acquire/release events, starting from `s` holders. -/
def semStates (n : Nat) (s : Nat) : List SemEvent → List Nat
  | [] => [s]
  | e :: es => s :: semStates n (semStep n s e) es

/-! ## Producer client (simulation/drive_simulator.py)

`send_telemetry(self, telemetry, max_retries=3)` with
`retry_delays = [0.5, 1.0, 2.0]`: for each attempt in `range(max_retries)`,
post the submission; a 200 response is returned immediately; an HTTP 503
("backend busy"), a timeout or a connection error sleeps
`retry_delays[attempt]` and retries; after the loop the submission is
dropped (`None`). Delays are modelled in seconds as rationals. -/

/-- What one POST attempt of `send_telemetry` can observe. -/
inductive AttemptOutcome where
  | ok (resp : ScoreResponse)
  | busy503
  | timeout
  | connError
deriving Repr, DecidableEq

/-- The fixed backoff schedule `retry_delays = [0.5, 1.0, 2.0]`. -/
def retry_delays : List ℚ := [1/2, 1, 2]

/-- The retry loop of `send_telemetry`, over the per-attempt outcomes
zipped with their backoff delays: returns the response (if any attempt
succeeded), the number of attempts made, and the delays slept. -/
def send_telemetry_loop : List (AttemptOutcome × ℚ) →
    Option ScoreResponse × Nat × List ℚ
  | [] => (none, 0, [])
  | (o, delay) :: rest =>
    match o with
    | .ok resp => (some resp, 1, [])
    | _ =>
      let r := send_telemetry_loop rest
      (r.1, r.2.1 + 1, delay :: r.2.2)

/-- Function `send_telemetry`: at most `max_retries = 3` attempts, with backoff
delays `retry_delays[attempt]` between failed attempts. `outcomes` gives
what the network/backend would answer on each successive attempt. -/
def send_telemetry (outcomes : List AttemptOutcome) :
    Option ScoreResponse × Nat × List ℚ :=
  send_telemetry_loop ((outcomes.take 3).zip retry_delays)

/-- The cadence loop of `run_simulation`: one entry of `ticks` per
scheduled tick, giving that tick's per-attempt outcomes. Every tick is
processed; a submission whose retries are exhausted is skipped (its score
is not recorded) and the loop continues; a successful submission appends
its score to `session_scores`. -/
def run_simulation (ticks : List (List AttemptOutcome)) : List ℚ :=
  ticks.filterMap (fun outcomes => ((send_telemetry outcomes).1).map (·.score))

/-! ## Session statistics (simulation/drive_simulator.py)

At completion `run_simulation` prints
`len(self.session_scores)`, `sum(...) / len(...)`, `max(...)`, `min(...)`.
Python's `/` raises `ZeroDivisionError` on a zero divisor, and `max`/`min`
raise `ValueError` on an empty list; a raising step is modelled as
`none`. -/

/-- Python division: `none` models the `ZeroDivisionError` raised on a
zero divisor. -/
def pyDiv (a b : ℚ) : Option ℚ :=
  if b = 0 then none else some (a / b)

/-- Python `max` over a list: raises (`none`) on the empty list. -/
def pyMax : List ℚ → Option ℚ
  | [] => none
  | x :: xs => some (xs.foldl max x)

/-- Python `min` over a list: raises (`none`) on the empty list. -/
def pyMin : List ℚ → Option ℚ
  | [] => none
  | x :: xs => some (xs.foldl min x)

/-- The end-of-session summary printed by `run_simulation`. -/
structure SessionSummary where
  total_updates : Nat
  average : ℚ
  best : ℚ
  worst : ℚ
deriving Repr, DecidableEq

/-- The summary computation at the end of `run_simulation`:
total updates, `sum(scores)/len(scores)`, `max(scores)`, `min(scores)`;
`none` models the uncaught exception when `session_scores` is empty. -/
def session_summary (session_scores : List ℚ) : Option SessionSummary := do
  let avg ← pyDiv session_scores.sum session_scores.length
  let best ← pyMax session_scores
  let worst ← pyMin session_scores
  pure ⟨session_scores.length, avg, best, worst⟩

/-! ## Helper lemmas -/

/-- A message broadcast on known traffic: its resolved mode is one of the
two deployed channels. -/
def Message.onKnownChannel (m : Message) : Bool :=
  m.resolvedMode = "personal" || m.resolvedMode = "fleet"

/-- An event whose broadcast traffic (if any) stays on the two deployed
channels. -/
def Event.knownChannel : Event → Bool
  | .broadcast m _ => m.onKnownChannel
  | _ => true

theorem mem_broadcast_send_loop {send_ok : ConnId → Bool} :
    ∀ {l : List ConnId} {c : ConnId},
      c ∈ (broadcast_send_loop send_ok l).1 → c ∈ l := by
  intro l
  induction l with
  | nil => intro c h; simp [broadcast_send_loop] at h
  | cons x xs ih =>
    intro c h
    by_cases hx : send_ok x
    · simp [broadcast_send_loop, hx] at h
      rcases h with h | h
      · simp [h]
      · exact List.mem_cons_of_mem _ (ih h)
    · simp [broadcast_send_loop, hx] at h

theorem mem_broadcast_deliveries {send_ok : ConnId → Bool} {r : Registry}
    {m : Message} {d : Delivery}
    (h : d ∈ (broadcast_to_clients send_ok r m).1) :
    d.pool = routePool m ∧ d.msg = m := by
  simp only [broadcast_to_clients, List.mem_map] at h
  obtain ⟨c, _, rfl⟩ := h
  exact ⟨rfl, rfl⟩

theorem mem_runTrace_deliveries {d : Delivery} :
    ∀ {evs : List Event} {r : Registry}, d ∈ (runTrace r evs).2 →
      d.pool = routePool d.msg ∧ ∃ f, Event.broadcast d.msg f ∈ evs := by
  intro evs
  induction evs with
  | nil => intro r h; simp [runTrace] at h
  | cons ev evs ih =>
    intro r h
    simp only [runTrace, List.mem_append] at h
    rcases h with h | h
    · match ev with
      | .join e c => simp [applyEvent] at h
      | .leave c => simp [applyEvent] at h
      | .broadcast m f =>
        have := @mem_broadcast_deliveries f r m d h
        refine ⟨by rw [this.2]; exact this.1, f, ?_⟩
        rw [this.2]
        exact List.mem_cons_self _ _
    · obtain ⟨hp, f, hf⟩ := ih h
      exact ⟨hp, f, List.mem_cons_of_mem _ hf⟩

theorem semStates_bounded {n : Nat} :
    ∀ {evs : List SemEvent} {s : Nat}, s ≤ n →
      ∀ x ∈ semStates n s evs, x ≤ n := by
  intro evs
  induction evs with
  | nil => intro s hs x hx; simp [semStates] at hx; omega
  | cons e es ih =>
    intro s hs x hx
    simp only [semStates, List.mem_cons] at hx
    rcases hx with rfl | hx
    · exact hs
    · refine ih ?_ x hx
      match e with
      | .acquire => simp only [semStep]; split <;> omega
      | .release => simp only [semStep]; omega

/-! ## C1: channel isolation of broadcast deliveries -/

/-- C1: For every ScoreResult delivered to a subscriber, the channel of
the subscriber's connection equals the channel of the originating record:
under an arbitrary interleaving of join/leave/broadcast events whose
broadcast traffic is on the two deployed channels, every delivery made to
the fleet pool carries a message whose resolved mode is "fleet", and
every delivery made to the personal pool one whose resolved mode is
"personal" — a fleet subscriber never receives a "personal" result and
vice versa. -/
theorem broadcast_channel_isolation (r : Registry) (evs : List Event)
    (d : Delivery)
    (hknown : ∀ ev ∈ evs, ev.knownChannel = true)
    (hd : d ∈ (runTrace r evs).2) :
    (d.pool = Pool.fleet ↔ d.msg.resolvedMode = "fleet") ∧
    (d.pool = Pool.personal ↔ d.msg.resolvedMode = "personal") := by
  obtain ⟨hp, f, hf⟩ := mem_runTrace_deliveries hd
  have hk : d.msg.onKnownChannel = true := by
    have := hknown _ hf
    simpa [Event.knownChannel] using this
  simp only [Message.onKnownChannel, Bool.or_eq_true, decide_eq_true_eq] at hk
  by_cases hfleet : d.msg.resolvedMode = "fleet"
  · rw [hp, routePool, if_pos hfleet]
    constructor
    · exact ⟨fun _ => hfleet, fun _ => rfl⟩
    · constructor
      · intro hcontra; cases hcontra
      · intro hper; rw [hper] at hfleet; exact absurd hfleet (by decide)
  · rw [hp, routePool, if_neg hfleet]
    constructor
    · constructor
      · intro hcontra; cases hcontra
      · intro hf'; exact absurd hf' hfleet
    · constructor
      · intro _
        rcases hk with hk | hk
        · exact hk
        · exact absurd hk hfleet
      · intro _; rfl

/-- A send function under which every send succeeds. -/
def all_sends_ok : ConnId → Bool := fun _ => true

/-- A concrete fleet-mode message. -/
def fleet_msg : Message := ⟨some "fleet", ⟨8, 0, 19/20⟩⟩

/-- A concrete interleaving: a fleet subscriber and a personal subscriber
join, then a fleet-channel result is broadcast. -/
def c1_trace : List Event :=
  [.join .ws_fleet 1, .join .ws_personal 2, .broadcast fleet_msg all_sends_ok]

theorem broadcast_channel_isolation_witness :
    (∀ ev ∈ c1_trace, ev.knownChannel = true) ∧
    (⟨1, Pool.fleet, fleet_msg⟩ : Delivery) ∈ (runTrace Registry.init c1_trace).2 ∧
    (((⟨1, Pool.fleet, fleet_msg⟩ : Delivery).pool = Pool.fleet ↔
        (fleet_msg : Message).resolvedMode = "fleet") ∧
      ((⟨1, Pool.fleet, fleet_msg⟩ : Delivery).pool = Pool.personal ↔
        (fleet_msg : Message).resolvedMode = "personal")) := by
  refine ⟨?_, ?_, ?_⟩
  · intro ev hev
    simp only [c1_trace, List.mem_cons, List.not_mem_nil, or_false] at hev
    rcases hev with rfl | rfl | rfl <;> rfl
  · simp [c1_trace, runTrace, applyEvent, Registry.init, Registry.join, poolOf,
      broadcast_to_clients, broadcast_send_loop, Registry.connectionsIn,
      routePool, fleet_msg, Message.resolvedMode, all_sends_ok]
  · exact broadcast_channel_isolation Registry.init c1_trace _
      (by intro ev hev
          simp only [c1_trace, List.mem_cons, List.not_mem_nil, or_false] at hev
          rcases hev with rfl | rfl | rfl <;> rfl)
      (by simp [c1_trace, runTrace, applyEvent, Registry.init, Registry.join, poolOf,
            broadcast_to_clients, broadcast_send_loop, Registry.connectionsIn,
            routePool, fleet_msg, Message.resolvedMode, all_sends_ok])

/-! ## C3: admission bound on concurrent score computations -/

/-- C3: under admission bound `n` (deployed value
`MAX_CONCURRENT_REQUESTS = 10`), along any interleaving of semaphore
acquire/release events — in particular one issued by `n + k` concurrent
scoring calls — the number of score computations in progress never
exceeds `n`. -/
theorem admission_bound_invariant (n s : Nat) (evs : List SemEvent) (x : Nat)
    (hs : s ≤ n) (hx : x ∈ semStates n s evs) : x ≤ n :=
  semStates_bounded hs x hx

/-- A trace issuing 13 concurrent scoring calls (N + K with N = 10,
K = 3): all 13 acquires arrive before any release. -/
def c3_trace : List SemEvent :=
  [.acquire, .acquire, .acquire, .acquire, .acquire, .acquire, .acquire,
   .acquire, .acquire, .acquire, .acquire, .acquire, .acquire]

theorem admission_bound_invariant_witness :
    (0 ≤ MAX_CONCURRENT_REQUESTS) ∧
    10 ∈ semStates MAX_CONCURRENT_REQUESTS 0 c3_trace ∧
    10 ≤ MAX_CONCURRENT_REQUESTS :=
  ⟨by decide, by decide,
    admission_bound_invariant MAX_CONCURRENT_REQUESTS 0 c3_trace 10
      (by decide) (by decide)⟩

/-! ## C2: fallback behaviour on deadline expiry and scorer exception -/

/-- A Score Computer that raises on every record, as in "if the Score
Computer throws". -/
def boom_computer : DrivingData → Except String ℚ := fun _ => .error "AttributeError"

/-- A well-formed telemetry record with channel "personal" and a
session id. -/
def sample_data : DrivingData := ⟨60, 0, 0, 0, none, 0, some "personal", none, some "s1"⟩

/-- C2 counterexample: when the Score Computer raises but the call is
within the 2-second deadline (elapsed = 1s), the route returns score 5.0
as claimed, but with the normal confidence 0.95, not the fallback
confidence 0.5: the claim that the exception path yields the fallback
ScoreResult (confidence 0.5) is false. -/
theorem scorer_exception_fallback_counterexample :
    (boom_computer sample_data).isOk = false ∧
    ¬ DEADLINE < (1 : ℚ) ∧
    (driving_data_route boom_computer 1 0 sample_data).score = 5 ∧
    (driving_data_route boom_computer 1 0 sample_data).confidence ≠ 1/2 := by
  refine ⟨rfl, by norm_num [DEADLINE], ?_, ?_⟩ <;>
    norm_num [driving_data_route, DEADLINE, calculate_score, boom_computer]

/-- C2 amended: if the call exceeds the 2-second deadline, or the Score
Computer raises, the route still returns a ScoreResult with score 5.0 and
no exception reaches the caller (`driving_data_route` is total); the
confidence is the fallback 0.5 exactly when the deadline expired, and the
normal 0.95 when the Score Computer raised within the deadline. -/
theorem scorer_exception_fallback_amended
    (computer : DrivingData → Except String ℚ) (elapsed : ℚ) (now : Nat)
    (d : DrivingData)
    (h : DEADLINE < elapsed ∨ (computer d).isOk = false) :
    (driving_data_route computer elapsed now d).score = 5 ∧
    (driving_data_route computer elapsed now d).confidence =
      if DEADLINE < elapsed then 1/2 else 19/20 := by
  unfold driving_data_route
  by_cases ht : DEADLINE < elapsed
  · simp [ht]
  · rcases h with h | h
    · exact absurd h ht
    · unfold calculate_score
      cases hc : computer d with
      | ok s => rw [hc] at h; simp [Except.isOk, Except.toBool] at h
      | error e => simp [ht, hc]

theorem scorer_exception_fallback_amended_witness :
    (DEADLINE < (1 : ℚ) ∨ (boom_computer sample_data).isOk = false) ∧
    ((driving_data_route boom_computer 1 0 sample_data).score = 5 ∧
      (driving_data_route boom_computer 1 0 sample_data).confidence =
        if DEADLINE < (1 : ℚ) then 1/2 else 19/20) :=
  ⟨Or.inr rfl,
    scorer_exception_fallback_amended boom_computer 1 0 sample_data (Or.inr rfl)⟩

/-! ## C9: confidence on the fully-completed path -/

/-- C9 counterexample: a submission whose score computation completes
fully within the deadline (the deployed computer succeeds, elapsed = 1s
< 2s) returns confidence 0.95, not 1.0: the claim that full completion
yields confidence exactly 1.0 is false. -/
theorem success_confidence_counterexample :
    (deployed_computer sample_data).isOk = true ∧
    ¬ DEADLINE < (1 : ℚ) ∧
    (driving_data_route deployed_computer 1 0 sample_data).confidence ≠ 1 := by
  refine ⟨rfl, by norm_num [DEADLINE], ?_⟩
  norm_num [driving_data_route, DEADLINE]

/-- C9 amended: every response completed within the deadline carries
confidence exactly 0.95 (not 1.0), and every deadline-expired response
carries the degraded confidence 0.5; so confidence 0.95 marks full
computation and a strictly lower confidence occurs only on the fallback
path. -/
theorem success_confidence_amended
    (computer : DrivingData → Except String ℚ) (elapsed : ℚ) (now : Nat)
    (d : DrivingData) :
    (driving_data_route computer elapsed now d).confidence =
      if DEADLINE < elapsed then 1/2 else 19/20 := by
  unfold driving_data_route
  split <;> rfl

/-! ## C4: bounds on the returned score and confidence -/

/-- The deployed (spec-modelled) Score Computer stays in [0,10] on every
record, in-range or not. -/
theorem rule_based_score_bounds (d : DrivingData) :
    0 ≤ rule_based_score d ∧ rule_based_score d ≤ 10 := by
  unfold rule_based_score
  exact ⟨le_max_left 0 _, max_le (by norm_num) (min_le_left _ _)⟩

/-- C4: for every submission valid per the spec (a present, non-empty
channel and sessionId) that the endpoint accepts, the returned
ScoreResult has score ∈ [0,10] and confidence ∈ [0,1] — both when the
computation completes (score from the Score Computer, confidence 0.95)
and when the deadline expires and the fallback (5.0, 0.5) is taken. -/
theorem ingest_score_bounds (elapsed : ℚ) (now : Nat)
    (send_ok : ConnId → Bool) (r : Registry) (raw : RawRecord)
    (resp : ScoreResponse) (ds : List Delivery) (ch sid : String)
    (hch : raw.simulation_mode = some ch) (hchne : ch ≠ "")
    (hsid : raw.session_id = some sid) (hsidne : sid ≠ "")
    (hok : ingest deployed_computer elapsed now send_ok r raw =
      .ok (resp, ds)) :
    0 ≤ resp.score ∧ resp.score ≤ 10 ∧
    0 ≤ resp.confidence ∧ resp.confidence ≤ 1 := by
  unfold ingest at hok
  cases hp : parse_driving_data raw with
  | error e => rw [hp] at hok; cases hok
  | ok d =>
    rw [hp] at hok
    simp only [Except.ok.injEq, Prod.mk.injEq] at hok
    obtain ⟨h1, -⟩ := hok
    subst h1
    unfold driving_data_route
    split
    · refine ⟨by norm_num, by norm_num, by norm_num, by norm_num⟩
    · have hb := rule_based_score_bounds d
      simp only [calculate_score, deployed_computer]
      exact ⟨hb.1, hb.2, by norm_num, by norm_num⟩

/-- A complete raw submission with channel "personal" and a session id. -/
def c4_raw : RawRecord :=
  ⟨some 60, some 0, some 0, some 0, none, some 0, some "personal", none, some "s1"⟩

theorem ingest_score_bounds_witness :
    c4_raw.simulation_mode = some "personal" ∧ "personal" ≠ "" ∧
    c4_raw.session_id = some "s1" ∧ "s1" ≠ "" ∧
    ingest deployed_computer 1 0 all_sends_ok Registry.init c4_raw =
      .ok (⟨10, 0, 19/20⟩, []) ∧
    (0 ≤ (⟨10, 0, 19/20⟩ : ScoreResponse).score ∧
      (⟨10, 0, 19/20⟩ : ScoreResponse).score ≤ 10 ∧
      0 ≤ (⟨10, 0, 19/20⟩ : ScoreResponse).confidence ∧
      (⟨10, 0, 19/20⟩ : ScoreResponse).confidence ≤ 1) := by
  have hok : ingest deployed_computer 1 0 all_sends_ok Registry.init c4_raw =
      .ok (⟨10, 0, 19/20⟩, []) := by
    norm_num [ingest, c4_raw, parse_driving_data, driving_data_route, DEADLINE,
      calculate_score, deployed_computer, rule_based_score, broadcast_to_clients,
      broadcast_send_loop, Registry.connectionsIn, Registry.init, routePool,
      Message.resolvedMode]
  exact ⟨rfl, by decide, rfl, by decide, hok,
    ingest_score_bounds 1 0 all_sends_ok Registry.init c4_raw ⟨10, 0, 19/20⟩ []
      "personal" "s1" rfl (by decide) rfl (by decide) hok⟩

/-! ## C5: producer retry with bounded exponential backoff -/

theorem send_loop_attempts_le (l : List (AttemptOutcome × ℚ)) :
    (send_telemetry_loop l).2.1 ≤ l.length := by
  induction l with
  | nil => simp [send_telemetry_loop]
  | cons p rest ih =>
    obtain ⟨o, delay⟩ := p
    cases o with
    | ok resp => simp [send_telemetry_loop]
    | busy503 => simp only [send_telemetry_loop, List.length_cons]; omega
    | timeout => simp only [send_telemetry_loop, List.length_cons]; omega
    | connError => simp only [send_telemetry_loop, List.length_cons]; omega

/-- C5: `send_telemetry` makes at most 3 attempts for any submission; a
submission whose retries are exhausted is dropped and the cadence loop
proceeds to the remaining ticks unchanged; and a submission that sees
exactly 2 transient failures then a success makes exactly 3 attempts,
sleeps the backoff delays 0.5s then 1.0s, and yields exactly one
success (the loop returns at the first successful attempt). -/
theorem producer_retry_backoff (outcomes : List AttemptOutcome)
    (ticks : List (List AttemptOutcome)) (bad : List AttemptOutcome)
    (resp : ScoreResponse)
    (hbad : (send_telemetry bad).1 = none) :
    (send_telemetry outcomes).2.1 ≤ 3 ∧
    run_simulation (bad :: ticks) = run_simulation ticks ∧
    send_telemetry [.timeout, .timeout, .ok resp] = (some resp, 3, [1/2, 1]) := by
  refine ⟨?_, ?_, ?_⟩
  · have h1 := send_loop_attempts_le ((outcomes.take 3).zip retry_delays)
    have h2 : ((outcomes.take 3).zip retry_delays).length ≤ 3 := by
      simp only [List.length_zip, List.length_take, retry_delays,
        List.length_cons, List.length_nil]
      omega
    exact le_trans h1 h2
  · simp [run_simulation, List.filterMap_cons, hbad]
  · rfl

/-- The response observed by the witness's third successful attempt. -/
def c5_resp : ScoreResponse := ⟨8, 0, 19/20⟩

theorem producer_retry_backoff_witness :
    (send_telemetry [.timeout, .timeout, .timeout]).1 = none ∧
    ((send_telemetry [.busy503, .connError, .ok c5_resp]).2.1 ≤ 3 ∧
      run_simulation ([.timeout, .timeout, .timeout] :: [[.ok c5_resp]]) =
        run_simulation [[.ok c5_resp]] ∧
      send_telemetry [.timeout, .timeout, .ok c5_resp] =
        (some c5_resp, 3, [1/2, 1])) :=
  ⟨rfl, producer_retry_backoff [.busy503, .connError, .ok c5_resp]
    [[.ok c5_resp]] [.timeout, .timeout, .timeout] c5_resp rfl⟩

/-! ## C6: validation of channel and session id -/

/-- A submission with every required telemetry field but neither a
channel (`simulation_mode`) nor a `session_id`. -/
def no_session_raw : RawRecord :=
  ⟨some 60, some 0, some 0, some 0, none, some 0, none, none, none⟩

/-- C6 counterexample: a submission lacking both the channel and the
session id passes validation (both fields are `Optional` with default
`None` in the `DrivingData` schema) and is accepted and scored by the
ingest endpoint — it is not rejected with a client error, so the claim
is false. -/
theorem missing_session_accepted_counterexample :
    no_session_raw.simulation_mode = none ∧
    no_session_raw.session_id = none ∧
    (parse_driving_data no_session_raw).isOk = true ∧
    ingest deployed_computer 1 0 all_sends_ok Registry.init no_session_raw =
      .ok (⟨10, 0, 19/20⟩, []) := by
  refine ⟨rfl, rfl, rfl, ?_⟩
  norm_num [ingest, no_session_raw, parse_driving_data, driving_data_route,
    DEADLINE, calculate_score, deployed_computer, rule_based_score,
    broadcast_to_clients, broadcast_send_loop, Registry.connectionsIn,
    Registry.init, routePool, Message.resolvedMode]

/-- C6 amended: validation rejects (with a 422 client error) exactly the
submissions missing a required telemetry field — speed, acceleration,
braking intensity, steering angle or timestamp; a missing
`simulation_mode` or `session_id` is accepted, the session id defaulting
to `None` and a missing mode routing the broadcast to the personal
channel. -/
theorem validation_required_amended (raw complete : RawRecord) (m : Message)
    (hspeed : raw.speed = none)
    (hc : complete.speed.isSome = true ∧ complete.acceleration.isSome = true ∧
      complete.braking_intensity.isSome = true ∧
      complete.steering_angle.isSome = true ∧ complete.timestamp.isSome = true)
    (hm : m.mode = none) :
    (parse_driving_data raw).isOk = false ∧
    (parse_driving_data complete).isOk = true ∧
    routePool m = Pool.personal := by
  obtain ⟨rsp, rac, rbr, rst, rjk, rts, rmd, rsc, rsi⟩ := raw
  obtain ⟨csp, cac, cbr, cst, cjk, cts, cmd, csc, csi⟩ := complete
  obtain ⟨mo, pl⟩ := m
  simp only at hspeed hm
  subst hspeed
  subst hm
  refine ⟨?_, ?_, ?_⟩
  · cases rac <;> cases rbr <;> cases rst <;> cases rts <;> rfl
  · cases csp <;> cases cac <;> cases cbr <;> cases cst <;> cases cts <;>
      simp_all [parse_driving_data, Except.isOk, Except.toBool]
  · rfl

/-- A submission missing the required `speed` field. -/
def no_speed_raw : RawRecord :=
  ⟨none, some 0, some 0, some 0, none, some 0, some "personal", none, some "s1"⟩

theorem validation_required_amended_witness :
    no_speed_raw.speed = none ∧
    (c4_raw.speed.isSome = true ∧ c4_raw.acceleration.isSome = true ∧
      c4_raw.braking_intensity.isSome = true ∧
      c4_raw.steering_angle.isSome = true ∧ c4_raw.timestamp.isSome = true) ∧
    (⟨none, ⟨5, 0, 19/20⟩⟩ : Message).mode = none ∧
    ((parse_driving_data no_speed_raw).isOk = false ∧
      (parse_driving_data c4_raw).isOk = true ∧
      routePool ⟨none, ⟨5, 0, 19/20⟩⟩ = Pool.personal) :=
  ⟨rfl, ⟨rfl, rfl, rfl, rfl, rfl⟩, rfl,
    validation_required_amended no_speed_raw c4_raw ⟨none, ⟨5, 0, 19/20⟩⟩
      rfl ⟨rfl, rfl, rfl, rfl, rfl⟩ rfl⟩

/-! ## C7: open (non-hardcoded) channel identifiers -/

/-- The broadcast message of a scored record on the unknown channel
"delivery". -/
def delivery_msg : Message := ⟨some "delivery", ⟨5, 0, 19/20⟩⟩

/-- C7 counterexample: the connection registry has exactly two pools and
three fixed endpoints, and `broadcast_to_clients` routes every message
whose mode is not "fleet" to the personal pool. Concretely, a result
originating on channel "delivery" is delivered to a subscriber of the
personal pool — there is no "delivery" partition a subscriber could
join, so the routing hardcodes the channel set and the claim is false. -/
theorem open_channel_counterexample :
    routePool delivery_msg = Pool.personal ∧
    (runTrace Registry.init
        [.join .ws_personal 1, .broadcast delivery_msg all_sends_ok]).2 =
      [⟨1, Pool.personal, delivery_msg⟩] ∧
    poolOf .ws_personal = Pool.personal ∧ poolOf .ws_fleet = Pool.fleet ∧
    poolOf .ws_legacy = Pool.personal := by
  refine ⟨rfl, ?_, rfl, rfl, rfl⟩
  simp [runTrace, applyEvent, Registry.init, Registry.join, poolOf,
    broadcast_to_clients, broadcast_send_loop, Registry.connectionsIn,
    routePool, delivery_msg, Message.resolvedMode, all_sends_ok]

/-- C7 amended: a record carrying an unknown channel string such as
"delivery" is accepted by validation and scored like any other record;
but the broadcaster hardcodes the deployed pools: its result is routed to
the personal pool (any mode other than "fleet" is), and every subscriber
endpoint registers into one of the two fixed pools, so a subscriber
cannot join a new channel without code changes. -/
theorem open_channel_amended (raw : RawRecord) (md : String) (m : Message)
    (e : Endpoint) (sp ac br st : ℚ) (ts : Nat)
    (hsp : raw.speed = some sp) (hac : raw.acceleration = some ac)
    (hbr : raw.braking_intensity = some br)
    (hst : raw.steering_angle = some st) (hts : raw.timestamp = some ts)
    (hmode : raw.simulation_mode = some md)
    (hmd1 : md ≠ "fleet") (hmd2 : md ≠ "personal")
    (hm : m.mode = some md) :
    (parse_driving_data raw).isOk = true ∧
    routePool m = Pool.personal ∧
    (poolOf e = Pool.personal ∨ poolOf e = Pool.fleet) := by
  refine ⟨?_, ?_, ?_⟩
  · obtain ⟨rsp, rac, rbr, rst, rjk, rts, rmd, rsc, rsi⟩ := raw
    simp only at hsp hac hbr hst hts
    subst hsp; subst hac; subst hbr; subst hst; subst hts
    rfl
  · obtain ⟨mo, pl⟩ := m
    simp only at hm
    subst hm
    simp [routePool, Message.resolvedMode, hmd1]
  · cases e
    · exact Or.inl rfl
    · exact Or.inr rfl
    · exact Or.inl rfl

/-- A complete raw submission on the unknown channel "delivery". -/
def delivery_raw : RawRecord :=
  ⟨some 60, some 0, some 0, some 0, none, some 0, some "delivery", none, some "s1"⟩

theorem open_channel_amended_witness :
    delivery_raw.speed = some 60 ∧ delivery_raw.acceleration = some 0 ∧
    delivery_raw.braking_intensity = some 0 ∧
    delivery_raw.steering_angle = some 0 ∧ delivery_raw.timestamp = some 0 ∧
    delivery_raw.simulation_mode = some "delivery" ∧
    "delivery" ≠ "fleet" ∧ "delivery" ≠ "personal" ∧
    (delivery_msg : Message).mode = some "delivery" ∧
    ((parse_driving_data delivery_raw).isOk = true ∧
      routePool delivery_msg = Pool.personal ∧
      (poolOf .ws_legacy = Pool.personal ∨ poolOf .ws_legacy = Pool.fleet)) :=
  ⟨rfl, rfl, rfl, rfl, rfl, rfl, by decide, by decide, rfl,
    open_channel_amended delivery_raw "delivery" delivery_msg .ws_legacy
      60 0 0 0 0 rfl rfl rfl rfl rfl rfl (by decide) (by decide) rfl⟩

/-! ## C8: eviction and continued delivery on a failed send -/

/-- The broadcast message of a personal-channel result. -/
def personal_msg : Message := ⟨some "personal", ⟨8, 0, 19/20⟩⟩

/-- C8 (code bug): the send loop of `broadcast_to_clients` has no
per-connection exception handling. With the personal pool holding the
dead connection 1 followed by the live connection 2, broadcasting a
personal-channel message whose send to connection 1 raises delivers to
nobody — the exception aborts the loop before the live connection 2 is
reached — and evicts nothing: the registry still holds connection 1
afterwards. This contradicts the specification (and the README's
"automatic cleanup" / "error resilience"), under which connection 1 is
evicted and connection 2 still receives the message. -/
theorem broadcast_eviction_code_bug :
    broadcast_to_clients (fun c => c != 1) ⟨[1, 2], []⟩ personal_msg =
      ([], true) ∧
    runTrace ⟨[1, 2], []⟩ [.broadcast personal_msg (fun c => c != 1)] =
      (⟨[1, 2], []⟩, []) := by
  constructor <;>
    simp [broadcast_to_clients, broadcast_send_loop, Registry.connectionsIn,
      routePool, personal_msg, Message.resolvedMode, runTrace, applyEvent]

/-! ## C10: end-of-session statistics -/

theorem le_foldl_max (xs : List ℚ) (a : ℚ) : a ≤ xs.foldl max a := by
  induction xs generalizing a with
  | nil => simp
  | cons x xs ih =>
    simp only [List.foldl_cons]
    exact le_trans (le_max_left a x) (ih (max a x))

theorem mem_le_foldl_max (xs : List ℚ) (a y : ℚ) (hy : y ∈ xs) :
    y ≤ xs.foldl max a := by
  induction xs generalizing a with
  | nil => simp at hy
  | cons x xs ih =>
    simp only [List.foldl_cons]
    rcases List.mem_cons.mp hy with rfl | hy
    · exact le_trans (le_max_right a y) (le_foldl_max xs (max a y))
    · exact ih (max a x) hy

theorem foldl_max_le (xs : List ℚ) (a b : ℚ) (hab : a ≤ b)
    (h : ∀ y ∈ xs, y ≤ b) : xs.foldl max a ≤ b := by
  induction xs generalizing a with
  | nil => simpa using hab
  | cons x xs ih =>
    simp only [List.foldl_cons]
    exact ih (max a x) (max_le hab (h x (by simp)))
      (fun y hy => h y (by simp [hy]))

theorem foldl_min_le (xs : List ℚ) (a : ℚ) : xs.foldl min a ≤ a := by
  induction xs generalizing a with
  | nil => simp
  | cons x xs ih =>
    simp only [List.foldl_cons]
    exact le_trans (ih (min a x)) (min_le_left a x)

theorem foldl_min_le_mem (xs : List ℚ) (a y : ℚ) (hy : y ∈ xs) :
    xs.foldl min a ≤ y := by
  induction xs generalizing a with
  | nil => simp at hy
  | cons x xs ih =>
    simp only [List.foldl_cons]
    rcases List.mem_cons.mp hy with rfl | hy
    · exact le_trans (foldl_min_le xs (min a y)) (min_le_right a y)
    · exact ih (min a x) hy

theorem le_foldl_min (xs : List ℚ) (a b : ℚ) (hab : b ≤ a)
    (h : ∀ y ∈ xs, b ≤ y) : b ≤ xs.foldl min a := by
  induction xs generalizing a with
  | nil => simpa using hab
  | cons x xs ih =>
    simp only [List.foldl_cons]
    exact ih (min a x) (le_min hab (h x (by simp)))
      (fun y hy => h y (by simp [hy]))

/-- Function `pyMax` returns exactly the maximum of a list: the member that bounds
every element. -/
theorem pyMax_eq (scores : List ℚ) (b : ℚ) (hbmem : b ∈ scores)
    (hbub : ∀ y ∈ scores, y ≤ b) : pyMax scores = some b := by
  cases scores with
  | nil => simp at hbmem
  | cons x xs =>
    simp only [pyMax, Option.some.injEq]
    refine le_antisymm ?_ ?_
    · exact foldl_max_le xs x b (hbub x (by simp))
        (fun y hy => hbub y (by simp [hy]))
    · rcases List.mem_cons.mp hbmem with rfl | hb
      · exact le_foldl_max xs b
      · exact mem_le_foldl_max xs x b hb

/-- Function `pyMin` returns exactly the minimum of a list. -/
theorem pyMin_eq (scores : List ℚ) (w : ℚ) (hwmem : w ∈ scores)
    (hwlb : ∀ y ∈ scores, w ≤ y) : pyMin scores = some w := by
  cases scores with
  | nil => simp at hwmem
  | cons x xs =>
    simp only [pyMin, Option.some.injEq]
    refine le_antisymm ?_ ?_
    · rcases List.mem_cons.mp hwmem with rfl | hw
      · exact foldl_min_le xs w
      · exact foldl_min_le_mem xs x w hw
    · exact le_foldl_min xs x w (hwlb x (by simp))
        (fun y hy => hwlb y (by simp [hy]))

/-- C10: for a session with at least one successfully received score, the
end-of-session summary equals the count, the sum divided by the count,
the maximum and the minimum of the received scores (`b` the maximum, `w`
the minimum); and for a session in which every submission was dropped,
the collected score list is empty and the summary computation fails with
a division by zero — `sum(scores) / len(scores)` divides by the length 0
of the empty list. -/
theorem session_summary_spec (scores : List ℚ)
    (ticks : List (List AttemptOutcome)) (b w : ℚ)
    (hbmem : b ∈ scores) (hbub : ∀ y ∈ scores, y ≤ b)
    (hwmem : w ∈ scores) (hwlb : ∀ y ∈ scores, w ≤ y)
    (hdrop : ∀ t ∈ ticks, (send_telemetry t).1 = none) :
    session_summary scores =
      some ⟨scores.length, scores.sum / scores.length, b, w⟩ ∧
    run_simulation ticks = [] ∧
    pyDiv (run_simulation ticks).sum (run_simulation ticks).length = none ∧
    session_summary (run_simulation ticks) = none := by
  have hnil : run_simulation ticks = [] := by
    simp only [run_simulation, List.filterMap_eq_nil_iff]
    intro t ht
    simp [hdrop t ht]
  refine ⟨?_, hnil, ?_, ?_⟩
  · have hne : scores.length ≠ 0 := by
      cases scores with
      | nil => simp at hbmem
      | cons x xs => simp
    have hcast : (scores.length : ℚ) ≠ 0 := Nat.cast_ne_zero.mpr hne
    simp [session_summary, pyDiv, hcast, pyMax_eq scores b hbmem hbub,
      pyMin_eq scores w hwmem hwlb, div_eq_mul_inv]
  · rw [hnil]
    simp [pyDiv]
  · rw [hnil]
    simp [session_summary, pyDiv]

/-- A tick on which every retry fails. -/
def all_dropped_tick : List AttemptOutcome := [.timeout, .timeout, .timeout]

theorem session_summary_spec_witness :
    (9 : ℚ) ∈ [(8 : ℚ), 6, 9] ∧ (∀ y ∈ [(8 : ℚ), 6, 9], y ≤ 9) ∧
    (6 : ℚ) ∈ [(8 : ℚ), 6, 9] ∧ (∀ y ∈ [(8 : ℚ), 6, 9], 6 ≤ y) ∧
    (∀ t ∈ [all_dropped_tick], (send_telemetry t).1 = none) ∧
    (session_summary [(8 : ℚ), 6, 9] =
        some ⟨([(8 : ℚ), 6, 9]).length,
          ([(8 : ℚ), 6, 9]).sum / ([(8 : ℚ), 6, 9]).length, 9, 6⟩ ∧
      run_simulation [all_dropped_tick] = [] ∧
      pyDiv (run_simulation [all_dropped_tick]).sum
        (run_simulation [all_dropped_tick]).length = none ∧
      session_summary (run_simulation [all_dropped_tick]) = none) := by
  have h1 : (9 : ℚ) ∈ [(8 : ℚ), 6, 9] := by norm_num
  have h2 : ∀ y ∈ [(8 : ℚ), 6, 9], y ≤ 9 := by
    intro y hy
    rcases List.mem_cons.mp hy with rfl | hy
    · norm_num
    rcases List.mem_cons.mp hy with rfl | hy
    · norm_num
    rcases List.mem_cons.mp hy with rfl | hy
    · norm_num
    · simp at hy
  have h3 : (6 : ℚ) ∈ [(8 : ℚ), 6, 9] := by norm_num
  have h4 : ∀ y ∈ [(8 : ℚ), 6, 9], (6 : ℚ) ≤ y := by
    intro y hy
    rcases List.mem_cons.mp hy with rfl | hy
    · norm_num
    rcases List.mem_cons.mp hy with rfl | hy
    · norm_num
    rcases List.mem_cons.mp hy with rfl | hy
    · norm_num
    · simp at hy
  have h5 : ∀ t ∈ [all_dropped_tick], (send_telemetry t).1 = none := by
    intro t ht
    rcases List.mem_cons.mp ht with rfl | ht
    · rfl
    · simp at ht
  exact ⟨h1, h2, h3, h4, h5,
    session_summary_spec [(8 : ℚ), 6, 9] [all_dropped_tick] 9 6 h1 h2 h3 h4 h5⟩

end Auralis
